import Mathlib

/-!
Shallow embedding of the CMD_Appointments service (FastAPI + SQLAlchemy).

The embedded code:
  src/app/models/appointments.py   - Appointment table, AppointmentStatus enum
  src/app/schemas/appointments.py  - AppointmentRequest and its validators
  src/app/crud.py                  - create_appointment, update_appointment_status,
                                     get_appointment_by_id, get_available_time_slots,
                                     get_appointments_by_patient_id, counts
  src/app/routers/appointments.py  - get_patient_appointments role check

The database is modelled as a list of rows in insertion order; SQLAlchemy
query combinators become list filters.  Python datetime.time and datetime.date
compare lexicographically on their components, which the TimeOfDay and
CalDate orders below reproduce.  The status column is String(20) in the
table, so rows carry a String status; the application layer only ever writes
values of the four-member enum.
-/

/-- Time of day: hour and minute, as Python datetime.time (seconds stay 0
in this service). -/
structure TimeOfDay where
  hour : Nat
  minute : Nat
deriving DecidableEq

/-- Python time comparison: lexicographic on (hour, minute). -/
def timeLt (a b : TimeOfDay) : Bool :=
  a.hour < b.hour || (a.hour == b.hour && a.minute < b.minute)

/-- Python time less-or-equal: lexicographic. -/
def timeLe (a b : TimeOfDay) : Bool :=
  timeLt a b || (a.hour == b.hour && a.minute == b.minute)

/-- Calendar date, as Python datetime.date. -/
structure CalDate where
  year : Nat
  month : Nat
  day : Nat
deriving DecidableEq

/-- Python date comparison: lexicographic on (year, month, day). -/
def dateLt (a b : CalDate) : Bool :=
  a.year < b.year ||
    (a.year == b.year &&
      (a.month < b.month || (a.month == b.month && a.day < b.day)))

/-- models/appointments.py AppointmentStatus: the four-member str enum. -/
inductive AppointmentStatus where
  | SCHEDULED
  | COMPLETED
  | CANCELLED
  | PENDING
deriving DecidableEq

/-- The string value of an enum member (it is a str-mixin enum, so this is
what gets compared with and stored in the String(20) column). -/
def statusValue : AppointmentStatus → String
  | .SCHEDULED => "SCHEDULED"
  | .COMPLETED => "COMPLETED"
  | .CANCELLED => "CANCELLED"
  | .PENDING => "PENDING"

/-- models/appointments.py Appointment: one row of the appointments table
(the surrogate integer key and created_at timestamp are not read by any
embedded operation and are omitted). -/
structure Appointment where
  appointment_id : String
  doctor_id : String
  patient_id : String
  facility_id : String
  doctor_name : String
  patient_name : String
  appointment_date : CalDate
  appointment_start_time : TimeOfDay
  appointment_end_time : TimeOfDay
  purpose_of_visit : String
  description : Option String
  status : String
deriving DecidableEq

/-- schemas/appointments.py AppointmentRequest: the creation payload, all
required fields present (pydantic rejects missing fields before the
validators run). -/
structure AppointmentRequest where
  doctor_id : String
  patient_id : String
  facility_id : String
  doctor_name : String
  patient_name : String
  appointment_date : CalDate
  appointment_start_time : TimeOfDay
  appointment_end_time : TimeOfDay
  purpose_of_visit : String
  description : Option String
deriving DecidableEq

/-- validator validate_appointment_date: rejects a date strictly earlier
than today; true means the check passes. -/
def validate_appointment_date (today : CalDate) (r : AppointmentRequest) : Bool :=
  !(dateLt r.appointment_date today)

/-- validator validate_appointment_time: rejects end_time less than or
equal to start_time; true means the check passes. -/
def validate_appointment_time (r : AppointmentRequest) : Bool :=
  !(timeLe r.appointment_end_time r.appointment_start_time)

/-- The pydantic Field length constraints of AppointmentRequest. -/
def validate_field_lengths (r : AppointmentRequest) : Bool :=
  2 ≤ r.doctor_name.length && r.doctor_name.length ≤ 100 &&
  (2 ≤ r.patient_name.length && r.patient_name.length ≤ 100) &&
  (2 ≤ r.purpose_of_visit.length && r.purpose_of_visit.length ≤ 255) &&
  (match r.description with
   | none => true
   | some d => d.length ≤ 500)

/-- Whole-request validation as pydantic runs it on the POST body: field
constraints plus the two custom validators. -/
def validateRequest (today : CalDate) (r : AppointmentRequest) : Bool :=
  validate_field_lengths r && validate_appointment_date today r &&
    validate_appointment_time r

/-- The error taxonomy of the HTTP layer: the distinct HTTPException kinds
the embedded operations raise (422 validation, 400 conflict, 404 not found,
403 forbidden, 500 internal). -/
inductive ApiError where
  | validation
  | conflict
  | notFound
  | forbidden
  | internal
deriving DecidableEq

/-- Whether a fallible operation succeeded. -/
def isSuccess {α : Type} : Except ApiError α → Bool
  | .ok _ => true
  | .error _ => false

instance {ε α : Type} [DecidableEq ε] [DecidableEq α] : DecidableEq (Except ε α) :=
  fun x y =>
  match x, y with
  | .error e1, .error e2 =>
    if h : e1 = e2 then .isTrue (congrArg Except.error h)
    else .isFalse (by intro hc; injection hc with h2; exact h h2)
  | .error _, .ok _ => .isFalse (by intro hc; exact Except.noConfusion hc)
  | .ok _, .error _ => .isFalse (by intro hc; exact Except.noConfusion hc)
  | .ok a1, .ok a2 =>
    if h : a1 = a2 then .isTrue (congrArg Except.ok h)
    else .isFalse (by intro hc; injection hc with h2; exact h h2)

/-- The store a transaction leaves behind: the new store on success, the
original store after rollback on any error. -/
def postStore (store : List Appointment) {α : Type}
    (res : Except ApiError (List Appointment × α)) : List Appointment :=
  match res with
  | .ok (s, _) => s
  | .error _ => store

/-- Python digit character: chr(48 + d). -/
def digitChar (d : Nat) : Char := Char.ofNat (48 + d)

/-- Decimal digits of n, most significant first, via fuel (fuel above n
suffices since n shrinks by a factor of ten each step).  This is str(n). -/
def natReprAux : Nat → Nat → List Char
  | 0, _ => []
  | fuel + 1, n =>
    if n < 10 then [digitChar n]
    else natReprAux fuel (n / 10) ++ [digitChar (n % 10)]

/-- Python str(n) for a natural number. -/
def natRepr (n : Nat) : List Char := natReprAux (n + 1) n

/-- Python str.zfill(w): left-pad with zero characters to width w. -/
def zfill (w : Nat) (s : List Char) : List Char :=
  List.replicate (w - s.length) '0' ++ s

/-- crud.py line 38: appointment_id = "APT" + str(next_id).zfill(4). -/
def formatAppointmentId (n : Nat) : String :=
  String.mk ('A' :: 'P' :: 'T' :: zfill 4 (natRepr n))

/-- crud.py line 33: int(appointment_id[3:]), the numeric suffix after
the APT prefix (total on digit strings, which is all the code ever parses). -/
def parseNat (cs : List Char) : Nat :=
  cs.foldl (fun acc c => acc * 10 + (c.toNat - 48)) 0

/-- The numeric suffix of an appointment id. -/
def idSuffix (s : String) : Nat := parseNat (s.data.drop 3)

/-- Code-point lexicographic order on character lists: the order the
database uses for ORDER BY appointment_id on a string column. -/
def charListLt : List Char → List Char → Bool
  | [], [] => false
  | [], _ :: _ => true
  | _ :: _, [] => false
  | a :: as, b :: bs =>
    if a.toNat < b.toNat then true
    else if a.toNat = b.toNat then charListLt as bs
    else false

/-- Lexicographic string order. -/
def strLt (a b : String) : Bool := charListLt a.data b.data

/-- crud.py line 31: query(...).order_by(appointment_id.desc()).first(),
the row with the lexicographically greatest appointment_id. -/
def lastAppointment : List Appointment → Option Appointment
  | [] => none
  | a :: rest =>
    match lastAppointment rest with
    | none => some a
    | some b => if strLt a.appointment_id b.appointment_id then some b else some a

/-- crud.py lines 30-38: the generated id for the next appointment. -/
def nextAppointmentId (store : List Appointment) : String :=
  match lastAppointment store with
  | some last => formatAppointmentId (idSuffix last.appointment_id + 1)
  | none => formatAppointmentId 1

/-- crud.py lines 41-51: the conflict filter for one existing row - same
doctor, same date, status not CANCELLED, half-open interval overlap. -/
def conflictsWith (a : Appointment) (r : AppointmentRequest) : Bool :=
  a.doctor_id == r.doctor_id &&
  a.appointment_date == r.appointment_date &&
  a.status != statusValue .CANCELLED &&
  timeLt a.appointment_start_time r.appointment_end_time &&
  timeLt r.appointment_start_time a.appointment_end_time

/-- Whether the store holds a conflicting appointment (.first() is some). -/
def hasConflict (store : List Appointment) (r : AppointmentRequest) : Bool :=
  store.any (fun a => conflictsWith a r)

/-- crud.py lines 59-72: the row built from the request; status is set to
SCHEDULED explicitly. -/
def buildAppointment (aid : String) (r : AppointmentRequest) : Appointment :=
  { appointment_id := aid
    doctor_id := r.doctor_id
    patient_id := r.patient_id
    facility_id := r.facility_id
    doctor_name := r.doctor_name
    patient_name := r.patient_name
    appointment_date := r.appointment_date
    appointment_start_time := r.appointment_start_time
    appointment_end_time := r.appointment_end_time
    purpose_of_visit := r.purpose_of_visit
    description := r.description
    status := statusValue .SCHEDULED }

/-- crud.py create_appointment: generate the id, reject on conflict with a
400 conflict error (re-raised past the generic handler), otherwise append
the new row and return it. -/
def create_appointment (store : List Appointment) (r : AppointmentRequest) :
    Except ApiError (List Appointment × Appointment) :=
  let aid := nextAppointmentId store
  if hasConflict store r then Except.error ApiError.conflict
  else
    let appt := buildAppointment aid r
    Except.ok (store ++ [appt], appt)

/-- routers/appointments.py POST handler: pydantic validates the body
before create_appointment runs; a validator failure is a 422 and the
handler is never entered. -/
def create_endpoint (today : CalDate) (store : List Appointment)
    (r : AppointmentRequest) : Except ApiError (List Appointment × Appointment) :=
  if validateRequest today r then create_appointment store r
  else Except.error ApiError.validation

/-- crud.py get_appointment_by_id: first row with the given id, 404 when
none matches. -/
def get_appointment_by_id (store : List Appointment) (aid : String) :
    Except ApiError Appointment :=
  match store.find? (fun a => a.appointment_id == aid) with
  | none => Except.error ApiError.notFound
  | some a => Except.ok a

/-- The ORM mutation appointment.status = new_status: rewrite the status
of the first row whose id matches, leave every other row untouched. -/
def setStatusFirst : List Appointment → String → String → List Appointment
  | [], _, _ => []
  | a :: rest, aid, st =>
    if a.appointment_id == aid then { a with status := st } :: rest
    else a :: setStatusFirst rest aid st

/-- crud.py update_appointment_status: look the row up, overwrite its
status, commit.  The surrounding try block catches every Exception -
including the 404 HTTPException raised by get_appointment_by_id, since
there is no separate re-raise clause for HTTPException here - rolls back
and raises a generic 500. -/
def update_appointment_status (store : List Appointment) (aid : String)
    (new_status : AppointmentStatus) :
    Except ApiError (List Appointment × Appointment) :=
  match get_appointment_by_id store aid with
  | .error _ => Except.error ApiError.internal
  | .ok a =>
    let a2 := { a with status := statusValue new_status }
    Except.ok (setStatusFirst store aid (statusValue new_status), a2)

/-- One hourly slot of the availability response. -/
structure TimeSlot where
  start_time : TimeOfDay
  end_time : TimeOfDay
deriving DecidableEq

/-- crud.py lines 154-159: the eight working-hour slots 09-10 .. 16-17. -/
def working_hours : List TimeSlot :=
  (List.range' 9 8).map
    (fun i => { start_time := { hour := i, minute := 0 }
                end_time := { hour := i + 1, minute := 0 } })

/-- crud.py lines 144-151: start and end times of the non-cancelled
appointments of the doctor on the date. -/
def bookedSlots (store : List Appointment) (did : String) (d : CalDate) :
    List (TimeOfDay × TimeOfDay) :=
  (store.filter (fun a =>
    a.doctor_id == did && a.appointment_date == d &&
      a.status != statusValue .CANCELLED)).map
    (fun a => (a.appointment_start_time, a.appointment_end_time))

/-- crud.py lines 163-169: a slot is blocked when its start instant lies
in some booked half-open interval. -/
def slotBlocked (booked : List (TimeOfDay × TimeOfDay)) (slot : TimeSlot) : Bool :=
  booked.any (fun b => timeLe b.1 slot.start_time && timeLt slot.start_time b.2)

/-- crud.py get_available_time_slots: the unblocked working-hour slots in
their generation order. -/
def get_available_time_slots (store : List Appointment) (did : String)
    (d : CalDate) : List TimeSlot :=
  working_hours.filter (fun slot => !slotBlocked (bookedSlots store did d) slot)

/-- crud.py get_appointments_by_patient_id. -/
def get_appointments_by_patient_id (store : List Appointment) (pid : String) :
    List Appointment :=
  store.filter (fun a => a.patient_id == pid)

/-- The caller identity the external auth service resolves. -/
structure User where
  username : String
  role : String
deriving DecidableEq

/-- routers/appointments.py get_patient_appointments: a PATIENT caller may
only read their own list (403 otherwise); every other role passes. -/
def get_patient_appointments (user : User) (pid : String)
    (store : List Appointment) : Except ApiError (List Appointment) :=
  if user.role == "PATIENT" && user.username != pid then
    Except.error ApiError.forbidden
  else Except.ok (get_appointments_by_patient_id store pid)

/-- crud.py get_appointments_count_by_status. -/
def get_appointments_count_by_status (store : List Appointment)
    (st : AppointmentStatus) : Nat :=
  (store.filter (fun a => a.status == statusValue st)).length

/-- The store states reachable through the service: empty at first, then
grown by the POST endpoint and mutated by the status PUT endpoint. -/
inductive Reachable : List Appointment → Prop where
  | empty : Reachable []
  | create (store : List Appointment) (today : CalDate) (r : AppointmentRequest)
      (store2 : List Appointment) (a : Appointment) :
      Reachable store → create_endpoint today store r = .ok (store2, a) →
      Reachable store2
  | update (store : List Appointment) (aid : String) (st : AppointmentStatus)
      (store2 : List Appointment) (a : Appointment) :
      Reachable store → update_appointment_status store aid st = .ok (store2, a) →
      Reachable store2

/-! ### Sample data used by concrete instances of the claims -/

/-- A sample date. -/
def dSample : CalDate := { year := 2026, month := 10, day := 12 }

/-- A stored appointment 09:00-10:00 for DOC0001 on dSample, SCHEDULED. -/
def baseAppt : Appointment :=
  { appointment_id := "APT0001"
    doctor_id := "DOC0001"
    patient_id := "PAT0001"
    facility_id := "FAC0001"
    doctor_name := "Dr. John Smith"
    patient_name := "Jane Doe"
    appointment_date := dSample
    appointment_start_time := { hour := 9, minute := 0 }
    appointment_end_time := { hour := 10, minute := 0 }
    purpose_of_visit := "Regular checkup"
    description := none
    status := "SCHEDULED" }

/-- The same appointment, CANCELLED. -/
def cancelledAppt : Appointment := { baseAppt with status := "CANCELLED" }

/-- A stored appointment 09:30-10:30 for DOC0001 on dSample. -/
def midSlotAppt : Appointment :=
  { baseAppt with
    appointment_start_time := { hour := 9, minute := 30 }
    appointment_end_time := { hour := 10, minute := 30 } }

/-- A creation request for DOC0001, dSample, 09:00-10:00. -/
def reqNineToTen : AppointmentRequest :=
  { doctor_id := "DOC0001"
    patient_id := "PAT0002"
    facility_id := "FAC0001"
    doctor_name := "Dr. John Smith"
    patient_name := "John Roe"
    appointment_date := dSample
    appointment_start_time := { hour := 9, minute := 0 }
    appointment_end_time := { hour := 10, minute := 0 }
    purpose_of_visit := "Regular checkup"
    description := none }

/-- The back-to-back request 10:00-11:00 for the same doctor and date. -/
def reqTenToEleven : AppointmentRequest :=
  { reqNineToTen with
    appointment_start_time := { hour := 10, minute := 0 }
    appointment_end_time := { hour := 11, minute := 0 } }

/-- A request 07:00-08:00, entirely outside working hours. -/
def reqSevenToEight : AppointmentRequest :=
  { reqNineToTen with
    appointment_start_time := { hour := 7, minute := 0 }
    appointment_end_time := { hour := 8, minute := 0 } }

/-- An appointment that overlaps the stored 09:00-10:00 one and is
COMPLETED; used to witness that the update re-checks nothing. -/
def overlapCompletedAppt : Appointment :=
  { baseAppt with appointment_id := "APT0002", status := "COMPLETED" }

/-- The appointment the first successful POST on an empty store creates. -/
def createdAppt : Appointment := buildAppointment "APT0001" reqNineToTen

/-- The four zero-padded decimal digits of a number below 10000, used to
reason about formatAppointmentId. -/
def dig4 (n : Nat) : List Char :=
  [digitChar (n / 1000), digitChar (n / 100 % 10),
   digitChar (n / 10 % 10), digitChar (n % 10)]

/-! ### Theorems -/

/-- The conflict filter of create_appointment, as a proposition over the
store: some row has the same doctor and date, is not CANCELLED, and its
half-open interval overlaps the request. -/
theorem hasConflict_iff (store : List Appointment) (r : AppointmentRequest) :
    hasConflict store r = true ↔
      ∃ a ∈ store, a.doctor_id = r.doctor_id ∧ a.appointment_date = r.appointment_date ∧
        a.status ≠ "CANCELLED" ∧
        timeLt a.appointment_start_time r.appointment_end_time = true ∧
        timeLt r.appointment_start_time a.appointment_end_time = true := by
  simp only [hasConflict, List.any_eq_true, conflictsWith, Bool.and_eq_true,
    beq_iff_eq, bne_iff_ne, statusValue]
  tauto

/-- Claim C1: creation rejects with the scheduling-conflict error, distinct
from any other failure, exactly when the store holds a non-CANCELLED
appointment of the same doctor and date whose half-open interval overlaps
the request (existing.start < new.end and existing.end > new.start);
otherwise it succeeds.  In particular a back-to-back request succeeds, and
a request overlapping only a CANCELLED appointment succeeds. -/
theorem creation_conflict_characterization (store : List Appointment)
    (r : AppointmentRequest) :
    (create_appointment store r = Except.error ApiError.conflict ↔
      ∃ a ∈ store, a.doctor_id = r.doctor_id ∧ a.appointment_date = r.appointment_date ∧
        a.status ≠ "CANCELLED" ∧
        timeLt a.appointment_start_time r.appointment_end_time = true ∧
        timeLt r.appointment_start_time a.appointment_end_time = true) ∧
    (isSuccess (create_appointment store r) = true ↔
      ¬ ∃ a ∈ store, a.doctor_id = r.doctor_id ∧ a.appointment_date = r.appointment_date ∧
        a.status ≠ "CANCELLED" ∧
        timeLt a.appointment_start_time r.appointment_end_time = true ∧
        timeLt r.appointment_start_time a.appointment_end_time = true) ∧
    (∀ e, create_appointment store r = Except.error e → e = ApiError.conflict) ∧
    isSuccess (create_appointment [baseAppt] reqTenToEleven) = true ∧
    isSuccess (create_appointment [cancelledAppt] reqNineToTen) = true := by
  rw [← hasConflict_iff]
  by_cases h : hasConflict store r = true
  · refine ⟨by simp [create_appointment, h], by simp [create_appointment, h, isSuccess],
      ?_, by decide, by decide⟩
    intro e he
    simp only [create_appointment, h, if_true] at he
    exact (Except.error.injEq _ _ ▸ he).symm ▸ rfl
  · refine ⟨by simp [create_appointment, h], by simp [create_appointment, h, isSuccess],
      ?_, by decide, by decide⟩
    intro e he
    simp [create_appointment, h] at he

/-- The slot-blocking test of get_available_time_slots, as a proposition
over the store: the slot start instant lies in the half-open interval of
some non-CANCELLED appointment of that doctor and date. -/
theorem slotBlocked_iff (store : List Appointment) (did : String) (d : CalDate)
    (slot : TimeSlot) :
    slotBlocked (bookedSlots store did d) slot = true ↔
      ∃ a ∈ store, a.doctor_id = did ∧ a.appointment_date = d ∧ a.status ≠ "CANCELLED" ∧
        timeLe a.appointment_start_time slot.start_time = true ∧
        timeLt slot.start_time a.appointment_end_time = true := by
  simp only [slotBlocked, bookedSlots, List.any_eq_true, List.mem_map, List.mem_filter,
    Bool.and_eq_true, beq_iff_eq, bne_iff_ne, statusValue]
  constructor
  · rintro ⟨⟨s, e⟩, ⟨a, ⟨ha, ⟨hdoc, hdate⟩, hst⟩, heq⟩, hle, hlt⟩
    cases heq
    exact ⟨a, ha, hdoc, hdate, hst, hle, hlt⟩
  · rintro ⟨a, ha, hdoc, hdate, hst, hle, hlt⟩
    exact ⟨(a.appointment_start_time, a.appointment_end_time),
      ⟨a, ⟨ha, ⟨hdoc, hdate⟩, hst⟩, rfl⟩, hle, hlt⟩

/-- Claim C2: slot availability returns exactly the working-hour slots
(09-10 through 16-17, in chronological order) whose start instant does not
fall within the half-open interval of any non-CANCELLED appointment of the
doctor on the date; a single 09:00-10:00 booking leaves the other seven
slots, and a booking starting strictly inside a slot (09:30-10:30) does
not block the 09:00-10:00 slot. -/
theorem available_slots_characterization (store : List Appointment) (did : String)
    (d : CalDate) :
    (∀ slot : TimeSlot, slot ∈ get_available_time_slots store did d ↔
      slot ∈ working_hours ∧
        ¬ ∃ a ∈ store, a.doctor_id = did ∧ a.appointment_date = d ∧
          a.status ≠ "CANCELLED" ∧
          timeLe a.appointment_start_time slot.start_time = true ∧
          timeLt slot.start_time a.appointment_end_time = true) ∧
    (get_available_time_slots store did d).Sublist working_hours ∧
    List.Pairwise (fun s t => timeLt s.start_time t.start_time = true)
      (get_available_time_slots store did d) ∧
    get_available_time_slots [baseAppt] "DOC0001" dSample =
      [{ start_time := { hour := 10, minute := 0 }, end_time := { hour := 11, minute := 0 } },
       { start_time := { hour := 11, minute := 0 }, end_time := { hour := 12, minute := 0 } },
       { start_time := { hour := 12, minute := 0 }, end_time := { hour := 13, minute := 0 } },
       { start_time := { hour := 13, minute := 0 }, end_time := { hour := 14, minute := 0 } },
       { start_time := { hour := 14, minute := 0 }, end_time := { hour := 15, minute := 0 } },
       { start_time := { hour := 15, minute := 0 }, end_time := { hour := 16, minute := 0 } },
       { start_time := { hour := 16, minute := 0 }, end_time := { hour := 17, minute := 0 } }] ∧
    ({ start_time := { hour := 9, minute := 0 },
       end_time := { hour := 10, minute := 0 } } : TimeSlot) ∈
      get_available_time_slots [midSlotAppt] "DOC0001" dSample := by
  refine ⟨?_, List.filter_sublist working_hours,
    List.Pairwise.sublist (List.filter_sublist working_hours) (by decide),
    by decide, by decide⟩
  intro slot
  rw [get_available_time_slots, List.mem_filter, Bool.not_eq_true',
    Bool.eq_false_iff, Ne, ← slotBlocked_iff store did d slot]

/-- Claim C4 (refuted by the code): updating the status of an appointment
id absent from the store fails with the generic 500 internal error, not
the distinct 404 error - the catch-all except clause of
update_appointment_status also catches the HTTPException that
get_appointment_by_id raises, and re-raises a generic 500. -/
theorem update_missing_id_generic_error :
    update_appointment_status [] "APT0001" AppointmentStatus.COMPLETED =
      Except.error ApiError.internal ∧
    update_appointment_status [] "APT0001" AppointmentStatus.COMPLETED ≠
      Except.error ApiError.notFound ∧
    get_appointment_by_id [] "APT0001" = Except.error ApiError.notFound := by
  decide

/-- Claim C6: listing the appointments of a patient is refused with the
403 authorization error exactly when the caller has role PATIENT and an
identity different from the requested patient_id; every other caller
(including a PATIENT asking for their own id) receives the appointment
list of that patient. -/
theorem patient_listing_authorization (user : User) (pid : String)
    (store : List Appointment) :
    (get_patient_appointments user pid store = Except.error ApiError.forbidden ↔
      user.role = "PATIENT" ∧ user.username ≠ pid) ∧
    (get_patient_appointments user pid store =
        Except.ok (store.filter (fun a => a.patient_id == pid)) ↔
      ¬ (user.role = "PATIENT" ∧ user.username ≠ pid)) := by
  have hb : (user.role == "PATIENT" && user.username != pid) = true ↔
      (user.role = "PATIENT" ∧ user.username ≠ pid) := by
    simp [Bool.and_eq_true, beq_iff_eq, bne_iff_ne]
  by_cases h : (user.role == "PATIENT" && user.username != pid) = true
  · have hp : user.role = "PATIENT" ∧ user.username ≠ pid := hb.mp h
    simp [get_patient_appointments, get_appointments_by_patient_id, h, hp]
  · have hf : (user.role == "PATIENT" && user.username != pid) = false :=
      Bool.eq_false_iff.mpr h
    have hp : ¬ (user.role = "PATIENT" ∧ user.username ≠ pid) := by
      rw [← hb, hf]; simp
    simp [get_patient_appointments, get_appointments_by_patient_id, hf, hp]

/-- Python time order is asymmetric: start < end rules out end <= start. -/
theorem timeLe_eq_false_of_timeLt (a b : TimeOfDay) (h : timeLt a b = true) :
    timeLe b a = false := by
  rw [Bool.eq_false_iff]
  intro hba
  simp only [timeLt, timeLe, Bool.or_eq_true, Bool.and_eq_true, beq_iff_eq,
    decide_eq_true_eq] at h hba
  omega

/-- Claim C7: a request whose end time is not strictly after its start
time fails the end-time validator, in which case the POST endpoint
rejects with a validation error and the store is unchanged; a request
with end strictly after start passes this check. -/
theorem end_time_validation (today : CalDate) (store : List Appointment)
    (r : AppointmentRequest) :
    (validate_appointment_time r = false ↔
      timeLe r.appointment_end_time r.appointment_start_time = true) ∧
    (timeLt r.appointment_start_time r.appointment_end_time = true →
      validate_appointment_time r = true) ∧
    (validate_appointment_time r = false →
      create_endpoint today store r = Except.error ApiError.validation ∧
      postStore store (create_endpoint today store r) = store) := by
  refine ⟨by simp [validate_appointment_time], ?_, ?_⟩
  · intro h
    simp [validate_appointment_time, timeLe_eq_false_of_timeLt _ _ h]
  · intro h
    have hv : validateRequest today r = false := by
      simp [validateRequest, h]
    simp [create_endpoint, hv, postStore]

/-- Claim C8: a request whose date is strictly earlier than the current
date at validation time fails the date validator, in which case the POST
endpoint rejects with a validation error and no appointment is created; a
date equal to today or later passes, and the date is never re-validated
afterwards - create_appointment itself can only fail with the conflict
error and succeeds on any conflict-free request whatever its date. -/
theorem date_validation (today : CalDate) (store : List Appointment)
    (r : AppointmentRequest) :
    (validate_appointment_date today r = false ↔
      dateLt r.appointment_date today = true) ∧
    (validate_appointment_date today r = false →
      create_endpoint today store r = Except.error ApiError.validation ∧
      postStore store (create_endpoint today store r) = store) ∧
    (∀ e, create_appointment store r = Except.error e → e = ApiError.conflict) ∧
    (hasConflict store r = false → isSuccess (create_appointment store r) = true) := by
  refine ⟨by simp [validate_appointment_date], ?_, ?_, ?_⟩
  · intro h
    have hv : validateRequest today r = false := by
      simp [validateRequest, h]
    simp [create_endpoint, hv, postStore]
  · intro e he
    by_cases hc : hasConflict store r = true
    · simp [create_appointment, hc] at he
      exact he.symm
    · have hc2 : hasConflict store r = false := Bool.eq_false_iff.mpr hc
      simp [create_appointment, hc2] at he
  · intro hc
    simp [create_appointment, hc, isSuccess]

/-- Claim C10: creation does not restrict times to working hours - the
valid request 07:00-08:00 for today on an empty store passes validation
and succeeds, yet its interval overlaps no working-hour slot, so it can
never coincide with a slot the availability operation offers. -/
theorem creation_outside_working_hours :
    validateRequest dSample reqSevenToEight = true ∧
    isSuccess (create_endpoint dSample [] reqSevenToEight) = true ∧
    (∀ slot ∈ working_hours,
      ¬ (timeLt slot.start_time reqSevenToEight.appointment_end_time = true ∧
         timeLt reqSevenToEight.appointment_start_time slot.end_time = true)) ∧
    (∀ (store : List Appointment) (did : String) (d : CalDate) (slot : TimeSlot),
      slot ∈ get_available_time_slots store did d →
      ¬ (timeLt slot.start_time reqSevenToEight.appointment_end_time = true ∧
         timeLt reqSevenToEight.appointment_start_time slot.end_time = true)) := by
  refine ⟨by decide, by decide, by decide, ?_⟩
  intro store did d slot hmem
  rw [get_available_time_slots] at hmem
  exact (by decide : ∀ s ∈ working_hours,
      ¬ (timeLt s.start_time reqSevenToEight.appointment_end_time = true ∧
         timeLt reqSevenToEight.appointment_start_time s.end_time = true))
    slot ((List.filter_sublist working_hours).subset hmem)

/-- find? locates the first row with the target id when everything before
it has a different id. -/
theorem find_first_match (pre post : List Appointment) (b : Appointment)
    (aid : String) (h1 : b.appointment_id = aid)
    (h2 : ∀ x ∈ pre, x.appointment_id ≠ aid) :
    (pre ++ b :: post).find? (fun a => a.appointment_id == aid) = some b := by
  induction pre with
  | nil => simp [List.find?, h1]
  | cons x xs ih =>
    have hx : (x.appointment_id == aid) = false := by
      simp only [beq_eq_false_iff_ne, ne_eq]
      exact h2 x (List.mem_cons_self x xs)
    simp only [List.cons_append, List.find?, hx]
    exact ih (fun y hy => h2 y (List.mem_cons_of_mem x hy))

/-- setStatusFirst rewrites exactly the first matching row. -/
theorem setStatusFirst_append (pre post : List Appointment) (b : Appointment)
    (aid : String) (st : String) (h1 : b.appointment_id = aid)
    (h2 : ∀ x ∈ pre, x.appointment_id ≠ aid) :
    setStatusFirst (pre ++ b :: post) aid st =
      pre ++ { b with status := st } :: post := by
  induction pre with
  | nil => simp [setStatusFirst, h1]
  | cons x xs ih =>
    have hx : ¬ ((x.appointment_id == aid) = true) := by
      simp only [beq_iff_eq]
      exact h2 x (List.mem_cons_self x xs)
    simp only [List.cons_append, setStatusFirst, if_neg hx, List.cons.injEq, true_and]
    exact ih (fun y hy => h2 y (List.mem_cons_of_mem x hy))

/-- Claim C5: for an appointment present in the store and any of the four
status values, the status update succeeds whatever the current status (no
transition is rejected and no conflict check is re-run), overwrites only
the status field of that appointment, and leaves every other appointment
unchanged. -/
theorem update_status_success (pre post : List Appointment) (b : Appointment)
    (aid : String) (st : AppointmentStatus)
    (h1 : b.appointment_id = aid) (h2 : ∀ x ∈ pre, x.appointment_id ≠ aid) :
    update_appointment_status (pre ++ b :: post) aid st =
      Except.ok (pre ++ { b with status := statusValue st } :: post,
        { b with status := statusValue st }) ∧
    ({ b with status := statusValue st }).appointment_id = b.appointment_id ∧
    ({ b with status := statusValue st }).doctor_id = b.doctor_id ∧
    ({ b with status := statusValue st }).patient_id = b.patient_id ∧
    ({ b with status := statusValue st }).facility_id = b.facility_id ∧
    ({ b with status := statusValue st }).appointment_date = b.appointment_date ∧
    ({ b with status := statusValue st }).appointment_start_time =
      b.appointment_start_time ∧
    ({ b with status := statusValue st }).appointment_end_time =
      b.appointment_end_time ∧
    ({ b with status := statusValue st }).status = statusValue st := by
  refine ⟨?_, rfl, rfl, rfl, rfl, rfl, rfl, rfl, rfl⟩
  rw [update_appointment_status, get_appointment_by_id,
    find_first_match pre post b aid h1 h2,
    setStatusFirst_append pre post b aid (statusValue st) h1 h2]

/-- Witness for claim C5: in a store where APT0002 is COMPLETED and its
interval coincides with another appointment of the same doctor, setting it
back to SCHEDULED (an illegal lifecycle transition) still succeeds with no
conflict re-check, rewrites only its status, and keeps APT0001 intact. -/
theorem update_status_success_witness :
    update_appointment_status ([baseAppt] ++ overlapCompletedAppt :: []) "APT0002"
        AppointmentStatus.SCHEDULED =
      Except.ok ([baseAppt] ++
          { overlapCompletedAppt with
            status := statusValue AppointmentStatus.SCHEDULED } :: [],
        { overlapCompletedAppt with
          status := statusValue AppointmentStatus.SCHEDULED }) ∧
    ({ overlapCompletedAppt with
        status := statusValue AppointmentStatus.SCHEDULED }).appointment_id =
      overlapCompletedAppt.appointment_id ∧
    ({ overlapCompletedAppt with
        status := statusValue AppointmentStatus.SCHEDULED }).doctor_id =
      overlapCompletedAppt.doctor_id ∧
    ({ overlapCompletedAppt with
        status := statusValue AppointmentStatus.SCHEDULED }).patient_id =
      overlapCompletedAppt.patient_id ∧
    ({ overlapCompletedAppt with
        status := statusValue AppointmentStatus.SCHEDULED }).facility_id =
      overlapCompletedAppt.facility_id ∧
    ({ overlapCompletedAppt with
        status := statusValue AppointmentStatus.SCHEDULED }).appointment_date =
      overlapCompletedAppt.appointment_date ∧
    ({ overlapCompletedAppt with
        status := statusValue AppointmentStatus.SCHEDULED }).appointment_start_time =
      overlapCompletedAppt.appointment_start_time ∧
    ({ overlapCompletedAppt with
        status := statusValue AppointmentStatus.SCHEDULED }).appointment_end_time =
      overlapCompletedAppt.appointment_end_time ∧
    ({ overlapCompletedAppt with
        status := statusValue AppointmentStatus.SCHEDULED }).status =
      statusValue AppointmentStatus.SCHEDULED :=
  update_status_success [baseAppt] [] overlapCompletedAppt "APT0002"
    AppointmentStatus.SCHEDULED (by decide) (by decide)

/-- A successful POST appends exactly one row, created with status
SCHEDULED. -/
theorem create_endpoint_ok (today : CalDate) (store : List Appointment)
    (r : AppointmentRequest) (store2 : List Appointment) (a : Appointment)
    (h : create_endpoint today store r = Except.ok (store2, a)) :
    store2 = store ++ [a] ∧ a.status = "SCHEDULED" := by
  rw [create_endpoint] at h
  by_cases hv : validateRequest today r = true
  · rw [if_pos hv, create_appointment] at h
    by_cases hc : hasConflict store r = true
    · rw [if_pos hc] at h
      exact Except.noConfusion h
    · rw [if_neg hc] at h
      injection h with h2
      cases h2
      exact ⟨rfl, rfl⟩
  · rw [if_neg hv] at h
    exact Except.noConfusion h

/-- A successful status PUT replaces the store by setStatusFirst. -/
theorem update_ok (store : List Appointment) (aid : String)
    (st : AppointmentStatus) (store2 : List Appointment) (a : Appointment)
    (h : update_appointment_status store aid st = Except.ok (store2, a)) :
    store2 = setStatusFirst store aid (statusValue st) := by
  rw [update_appointment_status] at h
  cases hg : get_appointment_by_id store aid with
  | error e =>
    rw [hg] at h
    exact Except.noConfusion h
  | ok b =>
    rw [hg] at h
    injection h with h2
    cases h2
    rfl

/-- Every row of setStatusFirst either carries the written status or the
status of some original row. -/
theorem setStatusFirst_statuses (l : List Appointment) (aid : String)
    (st : String) :
    ∀ x ∈ setStatusFirst l aid st, x.status = st ∨ ∃ y ∈ l, x.status = y.status := by
  induction l with
  | nil => simp [setStatusFirst]
  | cons a rest ih =>
    by_cases h : (a.appointment_id == aid) = true
    · simp only [setStatusFirst, if_pos h]
      intro x hx
      rcases List.mem_cons.mp hx with rfl | hx2
      · exact Or.inl rfl
      · exact Or.inr ⟨x, List.mem_cons_of_mem a hx2, rfl⟩
    · simp only [setStatusFirst, if_neg h]
      intro x hx
      rcases List.mem_cons.mp hx with rfl | hx2
      · exact Or.inr ⟨x, List.mem_cons_self x rest, rfl⟩
      · rcases ih x hx2 with h1 | ⟨y, hy, h2⟩
        · exact Or.inl h1
        · exact Or.inr ⟨y, List.mem_cons_of_mem a hy, h2⟩

/-- Unfolding one row of a per-status count. -/
theorem count_cons (a : Appointment) (rest : List Appointment)
    (st : AppointmentStatus) :
    get_appointments_count_by_status (a :: rest) st =
      (if a.status == statusValue st then 1 else 0) +
        get_appointments_count_by_status rest st := by
  by_cases h : (a.status == statusValue st) = true <;>
    simp [get_appointments_count_by_status, List.filter_cons, h] <;> omega

/-- When every status is one of the four enum values, the four per-status
counts partition the store. -/
theorem count_sum : ∀ l : List Appointment,
    (∀ a ∈ l, a.status = "SCHEDULED" ∨ a.status = "COMPLETED" ∨
      a.status = "CANCELLED" ∨ a.status = "PENDING") →
    get_appointments_count_by_status l .SCHEDULED +
      get_appointments_count_by_status l .COMPLETED +
      get_appointments_count_by_status l .CANCELLED +
      get_appointments_count_by_status l .PENDING = l.length := by
  intro l
  induction l with
  | nil => intro _; rfl
  | cons a rest ih =>
    intro h
    have ha := h a (List.mem_cons_self a rest)
    have ihr := ih (fun x hx => h x (List.mem_cons_of_mem a hx))
    rw [count_cons, count_cons, count_cons, count_cons, List.length_cons]
    rcases ha with h4 | h4 | h4 | h4 <;> rw [h4] <;> simp [statusValue] <;> omega

/-- Claim C9: in every store state reachable through creation and status
update, each stored appointment has one of the four enum statuses, and the
four per-status counts sum to the number of stored appointments. -/
theorem reachable_status_invariant (store : List Appointment)
    (h : Reachable store) :
    (∀ a ∈ store, a.status = "SCHEDULED" ∨ a.status = "COMPLETED" ∨
      a.status = "CANCELLED" ∨ a.status = "PENDING") ∧
    get_appointments_count_by_status store .SCHEDULED +
      get_appointments_count_by_status store .COMPLETED +
      get_appointments_count_by_status store .CANCELLED +
      get_appointments_count_by_status store .PENDING = store.length := by
  have hs : ∀ a ∈ store, a.status = "SCHEDULED" ∨ a.status = "COMPLETED" ∨
      a.status = "CANCELLED" ∨ a.status = "PENDING" := by
    induction h with
    | empty => simp
    | create store today r store2 a hr hok ih =>
      obtain ⟨rfl, hst⟩ := create_endpoint_ok today store r store2 a hok
      intro x hx
      rcases List.mem_append.mp hx with hx2 | hx2
      · exact ih x hx2
      · rw [List.mem_singleton.mp hx2]
        exact Or.inl hst
    | update store aid st store2 a hr hok ih =>
      obtain rfl := update_ok store aid st store2 a hok
      intro x hx
      rcases setStatusFirst_statuses store aid (statusValue st) x hx with
        h1 | ⟨y, hy, h2⟩
      · cases st with
        | SCHEDULED => exact Or.inl h1
        | COMPLETED => exact Or.inr (Or.inl h1)
        | CANCELLED => exact Or.inr (Or.inr (Or.inl h1))
        | PENDING => exact Or.inr (Or.inr (Or.inr h1))
      · rw [h2]
        exact ih y hy
  exact ⟨hs, count_sum store hs⟩

/-- Witness for claim C9: the store reached by one successful creation
satisfies the status invariant and the count partition. -/
theorem reachable_status_invariant_witness :
    (∀ a ∈ [createdAppt], a.status = "SCHEDULED" ∨ a.status = "COMPLETED" ∨
      a.status = "CANCELLED" ∨ a.status = "PENDING") ∧
    get_appointments_count_by_status [createdAppt] .SCHEDULED +
      get_appointments_count_by_status [createdAppt] .COMPLETED +
      get_appointments_count_by_status [createdAppt] .CANCELLED +
      get_appointments_count_by_status [createdAppt] .PENDING =
      [createdAppt].length :=
  reachable_status_invariant [createdAppt]
    (Reachable.create [] dSample reqNineToTen [createdAppt] createdAppt
      Reachable.empty (by decide))

/-- Digit characters carry code point 48 + digit. -/
theorem digitChar_toNat : ∀ d : Nat, d < 10 → (digitChar d).toNat = 48 + d := by
  decide

/-- The fuel of natReprAux does not matter once it exceeds the number. -/
theorem natReprAux_fuel : ∀ (f1 f2 n : Nat), n < f1 → n < f2 →
    natReprAux f1 n = natReprAux f2 n := by
  intro f1
  induction f1 with
  | zero => intro f2 n h1 _; exact absurd h1 (Nat.not_lt_zero n)
  | succ f ih =>
    intro f2 n h1 h2
    cases f2 with
    | zero => exact absurd h2 (Nat.not_lt_zero n)
    | succ g =>
      simp only [natReprAux]
      by_cases h : n < 10
      · simp [h]
      · rw [if_neg h, if_neg h]
        congr 1
        exact ih g (n / 10) (by omega) (by omega)

/-- str(n) for a single digit. -/
theorem natRepr_small (n : Nat) (h : n < 10) : natRepr n = [digitChar n] := by
  simp [natRepr, natReprAux, h]

/-- str(n) peels its last digit for n of two or more digits. -/
theorem natRepr_step (n : Nat) (h : 10 ≤ n) :
    natRepr n = natRepr (n / 10) ++ [digitChar (n % 10)] := by
  rw [natRepr, natRepr]
  show natReprAux (n + 1) n = natReprAux (n / 10 + 1) (n / 10) ++ [digitChar (n % 10)]
  simp only [natReprAux, if_neg (by omega : ¬ n < 10)]
  congr 1
  exact natReprAux_fuel n (n / 10 + 1) (n / 10) (by omega) (by omega)

/-- str(n) for two digits. -/
theorem natRepr_two (n : Nat) (h1 : 10 ≤ n) (h2 : n < 100) :
    natRepr n = [digitChar (n / 10), digitChar (n % 10)] := by
  rw [natRepr_step n h1, natRepr_small (n / 10) (by omega)]
  rfl

/-- str(n) for three digits. -/
theorem natRepr_three (n : Nat) (h1 : 100 ≤ n) (h2 : n < 1000) :
    natRepr n = [digitChar (n / 100), digitChar (n / 10 % 10), digitChar (n % 10)] := by
  rw [natRepr_step n (by omega), natRepr_two (n / 10) (by omega) (by omega)]
  have e1 : n / 10 / 10 = n / 100 := by omega
  have e2 : n / 10 % 10 = n / 10 % 10 := rfl
  rw [e1]
  rfl

/-- str(n) for four digits. -/
theorem natRepr_four (n : Nat) (h1 : 1000 ≤ n) (h2 : n < 10000) :
    natRepr n = [digitChar (n / 1000), digitChar (n / 100 % 10),
      digitChar (n / 10 % 10), digitChar (n % 10)] := by
  rw [natRepr_step n (by omega), natRepr_three (n / 10) (by omega) (by omega)]
  have e1 : n / 10 / 100 = n / 1000 := by omega
  have e2 : n / 10 / 10 % 10 = n / 100 % 10 := by omega
  rw [e1, e2]
  rfl

/-- Zero padding turns str(n) into the four-digit form for n < 10000. -/
theorem zfill4_natRepr (n : Nat) (h : n < 10000) :
    zfill 4 (natRepr n) = dig4 n := by
  have hz : digitChar 0 = '0' := by decide
  rcases Nat.lt_or_ge n 10 with h1 | h1
  · rw [natRepr_small n h1, dig4,
      (by omega : n / 1000 = 0), (by omega : n / 100 % 10 = 0),
      (by omega : n / 10 % 10 = 0), (by omega : n % 10 = n), hz]
    rfl
  rcases Nat.lt_or_ge n 100 with h2 | h2
  · rw [natRepr_two n h1 h2, dig4,
      (by omega : n / 1000 = 0), (by omega : n / 100 % 10 = 0),
      (by omega : n / 10 % 10 = n / 10), hz]
    rfl
  rcases Nat.lt_or_ge n 1000 with h3 | h3
  · rw [natRepr_three n h2 h3, dig4,
      (by omega : n / 1000 = 0), (by omega : n / 100 % 10 = n / 100), hz]
    rfl
  · rw [natRepr_four n h3 h, dig4]
    rfl

/-- int() undoes the four-digit rendering. -/
theorem parseNat_dig4 (n : Nat) (h : n < 10000) : parseNat (dig4 n) = n := by
  have c1 := digitChar_toNat (n / 1000) (by omega)
  have c2 := digitChar_toNat (n / 100 % 10) (by omega)
  have c3 := digitChar_toNat (n / 10 % 10) (by omega)
  have c4 := digitChar_toNat (n % 10) (by omega)
  simp only [parseNat, dig4, List.foldl, c1, c2, c3, c4]
  omega

/-- The numeric suffix of a generated id is the generating number. -/
theorem idSuffix_format (n : Nat) (h : n < 10000) :
    idSuffix (formatAppointmentId n) = n := by
  rw [idSuffix, formatAppointmentId]
  show parseNat (('A' :: 'P' :: 'T' :: zfill 4 (natRepr n)).drop 3) = n
  rw [show ('A' :: 'P' :: 'T' :: zfill 4 (natRepr n)).drop 3 = zfill 4 (natRepr n) from rfl,
    zfill4_natRepr n h]
  exact parseNat_dig4 n h

/-- Lexicographic order is irreflexive. -/
theorem charListLt_irrefl : ∀ l : List Char, charListLt l l = false := by
  intro l
  induction l with
  | nil => rfl
  | cons a as ih => simp [charListLt, ih]

/-- Lexicographic order is asymmetric. -/
theorem charListLt_asymm : ∀ a b : List Char,
    charListLt a b = true → charListLt b a = false := by
  intro a
  induction a with
  | nil =>
    intro b h
    cases b with
    | nil => rfl
    | cons y ys => rfl
  | cons x xs ih =>
    intro b h
    cases b with
    | nil => exact absurd h (by simp [charListLt])
    | cons y ys =>
      show (if y.toNat < x.toNat then true
            else if y.toNat = x.toNat then charListLt ys xs else false) = false
      rcases Nat.lt_trichotomy x.toNat y.toNat with hlt | heq | hgt
      · rw [if_neg (by omega), if_neg (by omega)]
      · rw [if_neg (by omega), if_pos heq.symm]
        have h2 : charListLt xs ys = true := by
          have := h
          rw [show charListLt (x :: xs) (y :: ys) =
              (if x.toNat < y.toNat then true
               else if x.toNat = y.toNat then charListLt xs ys else false) from rfl,
            if_neg (by omega), if_pos heq] at this
          exact this
        exact ih ys h2
      · exfalso
        rw [show charListLt (x :: xs) (y :: ys) =
            (if x.toNat < y.toNat then true
             else if x.toNat = y.toNat then charListLt xs ys else false) from rfl,
          if_neg (by omega), if_neg (by omega)] at h
        exact Bool.false_ne_true h

/-- Numeric order of the operands gives lexicographic order of their
four-digit renderings. -/
theorem dig4_lt (n m : Nat) (hnm : n < m) (hm : m < 10000) :
    charListLt (dig4 n) (dig4 m) = true := by
  have c1 := digitChar_toNat (n / 1000) (by omega)
  have c2 := digitChar_toNat (n / 100 % 10) (by omega)
  have c3 := digitChar_toNat (n / 10 % 10) (by omega)
  have c4 := digitChar_toNat (n % 10) (by omega)
  have d1 := digitChar_toNat (m / 1000) (by omega)
  have d2 := digitChar_toNat (m / 100 % 10) (by omega)
  have d3 := digitChar_toNat (m / 10 % 10) (by omega)
  have d4 := digitChar_toNat (m % 10) (by omega)
  simp only [dig4, charListLt, c1, c2, c3, c4, d1, d2, d3, d4]
  split_ifs <;> first | rfl | omega

/-- On generated ids below 10000, string order agrees with numeric order. -/
theorem format_lt_iff (n m : Nat) (hn : n < 10000) (hm : m < 10000) :
    strLt (formatAppointmentId n) (formatAppointmentId m) = true ↔ n < m := by
  have key : strLt (formatAppointmentId n) (formatAppointmentId m) =
      charListLt (dig4 n) (dig4 m) := by
    rw [strLt, formatAppointmentId, formatAppointmentId]
    show charListLt ('A' :: 'P' :: 'T' :: zfill 4 (natRepr n))
        ('A' :: 'P' :: 'T' :: zfill 4 (natRepr m)) = _
    rw [zfill4_natRepr n hn, zfill4_natRepr m hm]
    simp [charListLt]
  rw [key]
  constructor
  · intro h
    rcases Nat.lt_trichotomy n m with h1 | h1 | h1
    · exact h1
    · subst h1
      rw [charListLt_irrefl] at h
      exact absurd h (by simp)
    · rw [charListLt_asymm _ _ (dig4_lt m n h1 hn)] at h
      exact absurd h (by simp)
  · exact fun h => dig4_lt n m h hm

/-- In a non-empty store whose ids are all well-formed generated ids, the
ORDER BY DESC first row is the one with the greatest numeric suffix. -/
theorem lastAppointment_max : ∀ store : List Appointment,
    store ≠ [] →
    (∀ a ∈ store, a.appointment_id = formatAppointmentId (idSuffix a.appointment_id) ∧
      idSuffix a.appointment_id ≤ 9999) →
    ∃ b ∈ store, lastAppointment store = some b ∧
      ∀ a ∈ store, idSuffix a.appointment_id ≤ idSuffix b.appointment_id := by
  intro store
  induction store with
  | nil => intro h _; exact absurd rfl h
  | cons x xs ih =>
    intro _ hwf
    cases xs with
    | nil =>
      refine ⟨x, List.mem_cons_self x [], rfl, ?_⟩
      intro a ha
      rw [List.mem_singleton.mp ha]
    | cons y ys =>
      obtain ⟨b, hbmem, hblast, hbmax⟩ := ih (by simp)
        (fun a ha => hwf a (List.mem_cons_of_mem x ha))
      have hwx := hwf x (List.mem_cons_self x (y :: ys))
      have hwb := hwf b (List.mem_cons_of_mem x hbmem)
      by_cases hlt : strLt x.appointment_id b.appointment_id = true
      · refine ⟨b, List.mem_cons_of_mem x hbmem, ?_, ?_⟩
        · show (match lastAppointment (y :: ys) with
            | none => some x
            | some c => if strLt x.appointment_id c.appointment_id
                        then some c else some x) = some b
          rw [hblast]
          simp [hlt]
        · intro a ha
          rcases List.mem_cons.mp ha with rfl | ha2
          · have hxb : idSuffix a.appointment_id < idSuffix b.appointment_id := by
              rw [hwx.1, hwb.1] at hlt
              exact (format_lt_iff (idSuffix a.appointment_id)
                (idSuffix b.appointment_id) (by omega) (by omega)).mp hlt
            omega
          · exact hbmax a ha2
      · refine ⟨x, List.mem_cons_self x (y :: ys), ?_, ?_⟩
        · show (match lastAppointment (y :: ys) with
            | none => some x
            | some c => if strLt x.appointment_id c.appointment_id
                        then some c else some x) = some x
          rw [hblast]
          simp [hlt]
        · intro a ha
          rcases List.mem_cons.mp ha with rfl | ha2
          · exact Nat.le_refl _
          · have hbx : idSuffix b.appointment_id ≤ idSuffix x.appointment_id := by
              by_contra hc
              apply hlt
              rw [hwx.1, hwb.1]
              exact (format_lt_iff (idSuffix x.appointment_id)
                (idSuffix b.appointment_id) (by omega) (by omega)).mpr (by omega)
            have := hbmax a ha2
            omega

/-- Claim C3: when every stored id is a generated zero-padded APT id with
suffix at most m (attained by some row), creation assigns the id formed
from the last existing id suffix plus one, zero-padded after the APT
prefix; the empty store gets APT0001; the new id is strictly greater than
and distinct from every stored id, and a conflict-free creation appends
exactly one row carrying it. -/
theorem creation_id_generation (store : List Appointment) (m : Nat)
    (hm : m < 9999)
    (hall : ∀ a ∈ store,
      a.appointment_id = formatAppointmentId (idSuffix a.appointment_id) ∧
      idSuffix a.appointment_id ≤ m)
    (hmax : ∃ a ∈ store, idSuffix a.appointment_id = m) :
    nextAppointmentId store = formatAppointmentId (m + 1) ∧
    nextAppointmentId [] = "APT0001" ∧
    (∀ a ∈ store, strLt a.appointment_id (formatAppointmentId (m + 1)) = true) ∧
    (∀ a ∈ store, a.appointment_id ≠ formatAppointmentId (m + 1)) ∧
    (∀ r : AppointmentRequest, hasConflict store r = false →
      create_appointment store r =
        Except.ok (store ++ [buildAppointment (formatAppointmentId (m + 1)) r],
          buildAppointment (formatAppointmentId (m + 1)) r)) := by
  obtain ⟨a0, ha0, ha0m⟩ := hmax
  have hne : store ≠ [] := by
    intro h
    rw [h] at ha0
    exact absurd ha0 (List.not_mem_nil a0)
  obtain ⟨b, hbmem, hblast, hbmax⟩ := lastAppointment_max store hne
    (fun a ha => ⟨(hall a ha).1, Nat.le_trans (hall a ha).2 (by omega)⟩)
  have hsb : idSuffix b.appointment_id = m := by
    have h1 := (hall b hbmem).2
    have h2 := hbmax a0 ha0
    omega
  have hnext : nextAppointmentId store = formatAppointmentId (m + 1) := by
    rw [nextAppointmentId, hblast]
    show formatAppointmentId (idSuffix b.appointment_id + 1) = formatAppointmentId (m + 1)
    rw [hsb]
  refine ⟨hnext, by decide, ?_, ?_, ?_⟩
  · intro a ha
    rw [(hall a ha).1]
    exact (format_lt_iff (idSuffix a.appointment_id) (m + 1) (by
      have := (hall a ha).2; omega) (by omega)).mpr (by
      have := (hall a ha).2; omega)
  · intro a ha hc
    have h1 : idSuffix a.appointment_id = m + 1 := by
      rw [hc]
      exact idSuffix_format (m + 1) (by omega)
    have := (hall a ha).2
    omega
  · intro r hcf
    rw [create_appointment]
    rw [if_neg (by rw [hcf]; exact Bool.false_ne_true), hnext]

/-- Witness for claim C3: a store holding APT0001 and APT0002 (maximal
suffix 2) gets APT0003 next, greater than and distinct from both stored
ids, and a conflict-free creation appends the row carrying it. -/
theorem creation_id_generation_witness :
    nextAppointmentId [baseAppt, overlapCompletedAppt] = formatAppointmentId 3 ∧
    nextAppointmentId [] = "APT0001" ∧
    (∀ a ∈ [baseAppt, overlapCompletedAppt],
      strLt a.appointment_id (formatAppointmentId 3) = true) ∧
    (∀ a ∈ [baseAppt, overlapCompletedAppt],
      a.appointment_id ≠ formatAppointmentId 3) ∧
    (∀ r : AppointmentRequest, hasConflict [baseAppt, overlapCompletedAppt] r = false →
      create_appointment [baseAppt, overlapCompletedAppt] r =
        Except.ok ([baseAppt, overlapCompletedAppt] ++
            [buildAppointment (formatAppointmentId 3) r],
          buildAppointment (formatAppointmentId 3) r)) :=
  creation_id_generation [baseAppt, overlapCompletedAppt] 2 (by decide)
    (by decide) (by decide)
